import Mathlib

/-!
Shallow embedding of the VertexChart client's state and persistence
orchestration layer (App.tsx plus the type declarations in types.ts).

The React component state is modelled as an explicit `AppState` record and
each handler becomes a pure state transformer.  Everything the handlers
observe from the outside world — the current clock (`Date.now()`), the
randomly drawn code string, the outcome of a Supabase write, and the outcome
of the external `analyzeChart` call — is passed in as an explicit parameter.
Epoch-millisecond instants and day durations are rationals, since durations
may be fractional (e.g. 1/24 for one hour).  The two localStorage keys
(`vertex_history`, `vertex_access_codes`) are modelled as optional parsed
arrays, and the per-tab `sessionStorage` marker `vertex_session` as an
optional string.
-/

namespace VertexChart

/-- `type AuthStatus = 'unauthorized' | 'user' | 'admin'` (App.tsx line 43). -/
inductive AuthStatus
  | unauthorized
  | user
  | admin
deriving DecidableEq, Repr

/-- `interface AccessCode` (App.tsx lines 45–50). -/
structure AccessCode where
  code : String
  expiry : ℚ
  duration : ℚ
  createdAt : ℚ
deriving DecidableEq, Repr

/-- `const MASTER_CODE = 'rFOt4cPdfyeFCNrB'` (App.tsx line 52). -/
def MASTER_CODE : String := "rFOt4cPdfyeFCNrB"

/-- `action: 'BUY' | 'SELL' | 'NEUTRAL'` (types.ts). -/
inductive SignalAction
  | BUY
  | SELL
  | NEUTRAL
deriving DecidableEq, Repr

/-- `interface TradingSignal` (types.ts). -/
structure TradingSignal where
  pair : String
  action : SignalAction
  entry : String
  tp : String
  sl : String
  confidence : ℚ
  reasoning : String
deriving DecidableEq, Repr

/-- The `technical` block of `interface AnalysisResult` (types.ts). -/
structure Technical where
  snr : String
  ict : String
  std : String
  alchemist : String
deriving DecidableEq, Repr

/-- `interface AnalysisResult` (types.ts). -/
structure AnalysisResult where
  signal : TradingSignal
  technical : Technical
  fundamental : String
  timestamp : String
deriving DecidableEq, Repr

/-- The component state of `App` (App.tsx lines 55–68) together with the
browser-storage cells the handlers read and write: the per-tab session marker
`sessionStorage["vertex_session"]` and the two localStorage arrays
`vertex_history` and `vertex_access_codes` (held parsed). -/
structure AppState where
  authStatus : AuthStatus
  accessCodes : List AccessCode
  loginCode : String
  adminCode : String
  image : Option String
  isAnalyzing : Bool
  result : Option AnalysisResult
  history : List AnalysisResult
  error : Option String
  sessionMarker : Option String
  localHistory : Option (List AnalysisResult)
  localCodes : Option (List AccessCode)
deriving DecidableEq, Repr

/-- ASCII uppercase of a string, modelling `String.prototype.toUpperCase`
as applied to the login input: every character uppercased. -/
def toUpper (s : String) : String := String.mk (s.data.map Char.toUpper)

/-- The login input's `onChange` handler (App.tsx line 353):
`setLoginCode(e.target.value.toUpperCase())`. -/
def setLoginCode (raw : String) (s : AppState) : AppState :=
  { s with loginCode := toUpper raw }

/-- `handleUserLogin` (App.tsx lines 232–243).  `now` stands for the
captured `Date.now()`. -/
def handleUserLogin (now : ℚ) (s : AppState) : AppState :=
  match s.accessCodes.find? (fun c => c.code == s.loginCode && decide (now < c.expiry)) with
  | some _ =>
      { s with authStatus := .user, sessionMarker := some "user", error := none }
  | none =>
      { s with error := some "Invalid or Expired Access Code" }

/-- Typing a raw string into the access-code box (which uppercases it) and
then pressing Enter: `handleUserLogin` after the `onChange` normalization. -/
def loginAttempt (raw : String) (now : ℚ) (s : AppState) : AppState :=
  handleUserLogin now (setLoginCode raw s)

/-- `handleAdminLogin` (App.tsx lines 245–253). -/
def handleAdminLogin (s : AppState) : AppState :=
  if s.adminCode == MASTER_CODE then
    { s with authStatus := .admin, sessionMarker := some "admin", error := none }
  else
    { s with error := some "Invalid Master Code" }

/-- `logout` (App.tsx lines 255–260). -/
def logout (s : AppState) : AppState :=
  { s with authStatus := .unauthorized, sessionMarker := none,
           loginCode := "", adminCode := "" }

/-- The `newCode` record built inside `generateCode` (App.tsx lines 269–275):
`expiry: now + (days * 24 * 60 * 60 * 1000)`, both fields from the single
captured `now`. -/
def mkAccessCode (code : String) (now days : ℚ) : AccessCode :=
  { code := code
    duration := days
    createdAt := now
    expiry := now + days * (24 * 60 * 60 * 1000) }

/-- `generateCode` (App.tsx lines 262–295).  `cfg` is `isSupabaseConfigured`,
`code` the randomly drawn 8-character string, `persistOk` whether the remote
insert returned without error. -/
def generateCode (cfg : Bool) (code : String) (now days : ℚ) (persistOk : Bool)
    (s : AppState) : AppState :=
  let newCode := mkAccessCode code now days
  if cfg then
    if persistOk then
      { s with accessCodes := newCode :: s.accessCodes }
    else
      { s with error := some "Failed to save code to database." }
  else
    { s with localCodes := some (newCode :: s.accessCodes),
             accessCodes := newCode :: s.accessCodes }

/-- `deleteCode` (App.tsx lines 297–309).  `persistOk` is whether the remote
delete returned without error (only consulted in remote mode). -/
def deleteCode (cfg : Bool) (v : String) (persistOk : Bool) (s : AppState) : AppState :=
  if cfg then
    if persistOk then
      { s with accessCodes := s.accessCodes.filter (fun c => c.code != v) }
    else
      { s with error := some "Failed to delete code from database." }
  else
    { s with localCodes := some (s.accessCodes.filter (fun c => c.code != v)),
             accessCodes := s.accessCodes.filter (fun c => c.code != v) }

/-- `runAnalysis` (App.tsx lines 168–196).  `outcome` is the result of the
`analyzeChart` call (`Except.error` carries `err.message`, possibly empty);
`persistOk` is the outcome of the remote history insert, which the source
awaits but never inspects — hence it is unused.  On success the in-memory
history is prepended-and-trimmed regardless of the persistence outcome; in
local mode the trimmed array is also written back to `vertex_history`. -/
def runAnalysis (cfg : Bool) (outcome : Except String AnalysisResult)
    (persistOk : Bool) (s : AppState) : AppState :=
  if s.image = none then
    { s with error := some "Please upload a chart image first." }
  else
    match outcome with
    | .ok data =>
        { s with isAnalyzing := false
                 error := none
                 result := some data
                 localHistory := if cfg then s.localHistory
                                 else some ((data :: s.history).take 20)
                 history := (data :: s.history).take 20 }
    | .error msg =>
        { s with isAnalyzing := false
                 error := some (if msg.isEmpty then "Analysis failed. Please try again."
                                else msg) }

/-- `clearHistory` (App.tsx lines 198–210). -/
def clearHistory (cfg : Bool) (remoteOk : Bool) (s : AppState) : AppState :=
  if !cfg then
    { s with history := [], localHistory := none }
  else if remoteOk then
    { s with history := [] }
  else
    { s with error := some "Failed to clear history from database." }

/-- The startup `fetchData` (App.tsx lines 72–114).  In remote mode the two
table reads are parameters (`remoteCodes` newest-created first, `remoteHist`
newest first; `.limit(20)` on the history select is the `take 20`), each
guarded by its error flag.  In local mode each localStorage key, when
present, replaces the corresponding in-memory list as-is — the history is
not trimmed. -/
def fetchData (cfg : Bool) (remoteCodes : List AccessCode)
    (remoteHist : List AnalysisResult) (codesErr histErr : Bool)
    (s : AppState) : AppState :=
  if cfg then
    let s1 := if codesErr then s else { s with accessCodes := remoteCodes }
    if histErr then s1 else { s1 with history := remoteHist.take 20 }
  else
    let s1 :=
      match s.localHistory with
      | some l => { s with history := l }
      | none => s
    match s1.localCodes with
    | some l => { s1 with accessCodes := l }
    | none => s1

/-- One event of the history lifecycle: a successful `runAnalysis` completion
(carrying the analysis payload and the outcome of the fire-and-forget remote
insert) or a `clearHistory` call (carrying the outcome of the remote
delete). -/
inductive HistOp
  | analyze (data : AnalysisResult) (persistOk : Bool)
  | clear (remoteOk : Bool)
deriving DecidableEq, Repr

/-- Run one history event through the corresponding App.tsx handler. -/
def applyHistOp (cfg : Bool) (s : AppState) : HistOp → AppState
  | .analyze d k => runAnalysis cfg (.ok d) k s
  | .clear k => clearHistory cfg k s

/-- Run a sequence of history events through the App.tsx handlers. -/
def applyHistOps (cfg : Bool) (ops : List HistOp) (s : AppState) : AppState :=
  ops.foldl (applyHistOp cfg) s

/-- The untrimmed newest-first spine of the history: each successful analysis
prepends its payload; a clear that takes effect (always in local mode, and on
remote success in remote mode) resets it. -/
def specStep (cfg : Bool) (acc : List AnalysisResult) : HistOp → List AnalysisResult
  | .analyze d _ => d :: acc
  | .clear k => if cfg && !k then acc else []

/-- The newest-first spine accumulated over a whole event sequence. -/
def histSpine (cfg : Bool) (ops : List HistOp) : List AnalysisResult :=
  ops.foldl (specStep cfg) []

/-- A concrete analysis result, used to instantiate witnesses. -/
def sampleResult : AnalysisResult :=
  { signal :=
      { pair := "EURUSD", action := .BUY, entry := "1.1000", tp := "1.1100"
        sl := "1.0900", confidence := 80, reasoning := "FVG retest" }
    technical := { snr := "s", ict := "i", std := "d", alchemist := "a" }
    fundamental := "macro", timestamp := "2026-10-12T00:00:00.000Z" }

/-- A concrete analysis result distinct from `sampleResult`. -/
def sampleResult2 : AnalysisResult :=
  { sampleResult with timestamp := "2026-10-12T01:00:00.000Z" }

/-- A concrete base state: freshly booted, unauthorized, nothing staged. -/
def st0 : AppState :=
  { authStatus := .unauthorized, accessCodes := [], loginCode := ""
    adminCode := "", image := none, isAnalyzing := false, result := none
    history := [], error := none, sessionMarker := none
    localHistory := none, localCodes := none }

section Lemmas

/-- `runAnalysis` and `clearHistory` never touch the staged image. -/
theorem applyHistOp_image (cfg : Bool) (s : AppState) (op : HistOp) :
    (applyHistOp cfg s op).image = s.image := by
  cases op with
  | analyze d k =>
      simp only [applyHistOp, runAnalysis]
      split
      · rfl
      · rfl
  | clear k =>
      simp only [applyHistOp, clearHistory]
      split
      · rfl
      · split <;> rfl

/-- Prepending to a trimmed list and trimming again is trimming the full
prepend: the step-level commutation behind the history invariant. -/
theorem take_cons_take (d : AnalysisResult) (a : List AnalysisResult) :
    (d :: a.take 20).take 20 = (d :: a).take 20 := by
  simp [List.take_succ_cons, List.take_take]

/-- Generalized invariant: if the in-memory history is the 20-trim of some
spine `acc` and an image is staged, then after any event sequence it is the
20-trim of the updated spine. -/
theorem applyHistOps_history (cfg : Bool) (ops : List HistOp) :
    ∀ (s : AppState) (acc : List AnalysisResult), s.image ≠ none →
      s.history = acc.take 20 →
      (applyHistOps cfg ops s).history = (ops.foldl (specStep cfg) acc).take 20 := by
  induction ops with
  | nil => intro s acc _ h; simpa [applyHistOps] using h
  | cons op ops ih =>
      intro s acc himg hh
      have himg' : (applyHistOp cfg s op).image ≠ none := by
        rw [applyHistOp_image]; exact himg
      have hstep : (applyHistOp cfg s op).history = (specStep cfg acc op).take 20 := by
        cases op with
        | analyze d k =>
            simp only [applyHistOp, runAnalysis, specStep]
            rw [if_neg himg]
            simp only
            rw [hh, take_cons_take]
        | clear k =>
            simp only [applyHistOp, clearHistory, specStep]
            cases cfg with
            | false => simp
            | true =>
                cases k with
                | false => simpa using hh
                | true => simp
      have := ih (applyHistOp cfg s op) (specStep cfg acc op) himg' hstep
      simpa [applyHistOps, List.foldl_cons] using this

/-- Folding the spine step over a pure run of analyses reverses it onto the
accumulator. -/
theorem foldl_specStep_analyze (cfg : Bool) (rs : List AnalysisResult) :
    ∀ acc, rs.foldl (fun a r => specStep cfg a (.analyze r true)) acc = rs.reverse ++ acc := by
  induction rs with
  | nil => intro acc; simp
  | cons r rs ih => intro acc; simp [specStep, ih]

/-- With 21 entries, reversing (newest first) and trimming to 20 keeps
everything but the oldest entry. -/
theorem reverse_take_20 (rs : List AnalysisResult) (h : rs.length = 21) :
    rs.reverse.take 20 = (rs.drop 1).reverse := by
  conv_lhs => rw [← List.take_append_drop 1 rs]
  rw [List.reverse_append]
  apply List.take_left'
  rw [List.length_reverse, List.length_drop, h]

/-- `fetchData` never touches the staged image. -/
theorem fetchData_image (cfg : Bool) (rc : List AccessCode)
    (rh : List AnalysisResult) (ce he : Bool) (s : AppState) :
    (fetchData cfg rc rh ce he s).image = s.image := by
  cases cfg <;> cases ce <;> cases he <;>
    cases hlh : s.localHistory <;> cases hlc : s.localCodes <;>
    simp [fetchData, hlh, hlc]

/-- `loginAttempt` characterized by the result of the `find?` over the code
collection, with the login input normalized to uppercase. -/
theorem loginAttempt_eq (raw : String) (now : ℚ) (s : AppState) :
    loginAttempt raw now s =
      match s.accessCodes.find?
          (fun c => c.code == toUpper raw && decide (now < c.expiry)) with
      | some _ =>
          { s with loginCode := toUpper raw, authStatus := .user,
                   sessionMarker := some "user", error := none }
      | none =>
          { s with loginCode := toUpper raw,
                   error := some "Invalid or Expired Access Code" } := by
  simp only [loginAttempt, setLoginCode, handleUserLogin]

/-- The `find?` in `handleUserLogin` succeeds exactly when some stored code
matches the uppercased input and has not yet expired. -/
theorem find?_isSome_iff (u : String) (now : ℚ) (l : List AccessCode) :
    (l.find? (fun c => c.code == u && decide (now < c.expiry))).isSome
      ↔ ∃ c ∈ l, c.code = u ∧ now < c.expiry := by
  rw [List.find?_isSome]
  constructor
  · rintro ⟨c, hc, hp⟩
    simp only [Bool.and_eq_true, beq_iff_eq, decide_eq_true_eq] at hp
    exact ⟨c, hc, hp⟩
  · rintro ⟨c, hc, h1, h2⟩
    exact ⟨c, hc, by simp [h1, h2]⟩

end Lemmas

section Claims

/-- C4: for every duration `days` (possibly fractional) the `AccessCode`
built inside `generateCode` satisfies `expiry = createdAt + days * 86400000`,
with `createdAt` and `expiry` both derived from the single captured instant
`now`; and in every mode a successful `generateCode` prepends exactly that
record to the collection. -/
theorem generateCode_expiry (code : String) (now days : ℚ) :
    (mkAccessCode code now days).expiry
        = (mkAccessCode code now days).createdAt + days * 86400000
    ∧ (mkAccessCode code now days).createdAt = now
    ∧ ∀ (k : Bool) (s : AppState),
        (generateCode true code now days true s).accessCodes
            = mkAccessCode code now days :: s.accessCodes
        ∧ (generateCode false code now days k s).accessCodes
            = mkAccessCode code now days :: s.accessCodes := by
  refine ⟨?_, rfl, ?_⟩
  · show now + days * (24 * 60 * 60 * 1000) = now + days * 86400000
    norm_num
  · intro k s
    constructor
    · simp [generateCode]
    · simp [generateCode]

/-- C5: from an unauthorized session, `handleAdminLogin` grants `admin` and
persists the session marker `"admin"` exactly when the submitted master key
equals the compiled-in `MASTER_CODE`; otherwise the only change is the error
`"Invalid Master Code"`. -/
theorem handleAdminLogin_iff (s : AppState) (h : s.authStatus = .unauthorized) :
    (((handleAdminLogin s).authStatus = .admin
        ∧ (handleAdminLogin s).sessionMarker = some "admin")
      ↔ s.adminCode = MASTER_CODE)
    ∧ (s.adminCode ≠ MASTER_CODE →
        handleAdminLogin s = { s with error := some "Invalid Master Code" }) := by
  by_cases hc : s.adminCode = MASTER_CODE
  · refine ⟨?_, fun hne => absurd hc hne⟩
    simp [handleAdminLogin, hc]
  · refine ⟨?_, fun _ => by simp [handleAdminLogin, hc]⟩
    simp [handleAdminLogin, hc, h]

/-- Witness for C5: submitting the exact master secret from the fresh
unauthorized state yields an admin session. -/
theorem handleAdminLogin_iff_witness :
    (handleAdminLogin { st0 with adminCode := MASTER_CODE }).authStatus = .admin :=
  ((handleAdminLogin_iff { st0 with adminCode := MASTER_CODE } rfl).1.mpr rfl).1

/-- C6: `runAnalysis` with no staged image only sets the inline error
message; nothing else in the state changes, and the result is independent of
the analysis outcome and the persistence outcome (no external call, no
write). -/
theorem runAnalysis_noImage (cfg : Bool) (outcome : Except String AnalysisResult)
    (k : Bool) (s : AppState) (h : s.image = none) :
    runAnalysis cfg outcome k s
      = { s with error := some "Please upload a chart image first." } := by
  simp [runAnalysis, h]

/-- Witness for C6: on the fresh state (no image staged) a would-be failing
remote analysis leaves everything but the error untouched. -/
theorem runAnalysis_noImage_witness :
    runAnalysis true (Except.error "boom") false st0
      = { st0 with error := some "Please upload a chart image first." } :=
  runAnalysis_noImage true (Except.error "boom") false st0 rfl

/-- C7: deleting a code value that is not in the collection leaves the
collection unchanged in both modes (and in local mode rewrites the stored
array with the same contents) — a graceful no-op. -/
theorem deleteCode_absent (cfg k : Bool) (v : String) (s : AppState)
    (h : v ∉ s.accessCodes.map AccessCode.code) :
    (deleteCode cfg v k s).accessCodes = s.accessCodes
    ∧ (deleteCode false v k s).localCodes = some s.accessCodes := by
  have hfilter : s.accessCodes.filter (fun c => c.code != v) = s.accessCodes := by
    apply List.filter_eq_self.mpr
    intro c hc
    simp only [bne_iff_ne, ne_eq]
    intro hcv
    exact h (List.mem_map.mpr ⟨c, hc, hcv⟩)
  constructor
  · cases cfg with
    | false => simp [deleteCode, hfilter]
    | true => cases k <;> simp [deleteCode, hfilter]
  · simp [deleteCode, hfilter]

/-- Witness for C7: deleting the absent value "ZZZZ" from a one-code
collection changes nothing. -/
theorem deleteCode_absent_witness :
    (deleteCode true "ZZZZ" true
        { st0 with accessCodes := [⟨"ABCD1234", 100, 1, 0⟩] }).accessCodes
      = [⟨"ABCD1234", 100, 1, 0⟩] :=
  (deleteCode_absent true true "ZZZZ"
      { st0 with accessCodes := [⟨"ABCD1234", 100, 1, 0⟩] } (by decide)).1

/-- A state that is unauthorized while a failed login attempt's input is
still sitting in the form field. -/
def stC8 : AppState := { st0 with loginCode := "A7" }

/-- Counterexample to C8 as stated: in an unauthorized state whose login
form still holds typed input, `logout` is not a no-op on the form fields —
it clears `loginCode`. -/
theorem logout_unauthorized_cex :
    stC8.authStatus = .unauthorized ∧ (logout stC8).loginCode ≠ stC8.loginCode := by
  decide

/-- C8 (amended): `logout` is idempotent — applying it twice has exactly the
same effect as applying it once — and when the session marker and both form
fields are already cleared, `logout` is a no-op on them. -/
theorem logout_idem (s : AppState) :
    logout (logout s) = logout s
    ∧ (s.sessionMarker = none → s.loginCode = "" → s.adminCode = "" →
        (logout s).sessionMarker = s.sessionMarker
        ∧ (logout s).loginCode = s.loginCode
        ∧ (logout s).adminCode = s.adminCode) := by
  refine ⟨rfl, ?_⟩
  intro h1 h2 h3
  refine ⟨?_, ?_, ?_⟩ <;> simp [logout, h1, h2, h3]

/-- Witness for C8 (amended): on the fresh logged-out state, `logout` leaves
the (already absent) session marker absent. -/
theorem logout_idem_witness :
    (logout st0).sessionMarker = st0.sessionMarker :=
  ((logout_idem st0).2 rfl rfl rfl).1

/-- C10: both login handlers, whether they succeed or fail, leave the
access-code collection and the history list untouched — in particular a
successful login never consumes the matched code. -/
theorem login_frame (now : ℚ) (s : AppState) :
    (handleUserLogin now s).accessCodes = s.accessCodes
    ∧ (handleUserLogin now s).history = s.history
    ∧ (handleAdminLogin s).accessCodes = s.accessCodes
    ∧ (handleAdminLogin s).history = s.history := by
  refine ⟨?_, ?_, ?_, ?_⟩ <;>
    first
      | (unfold handleUserLogin; split <;> rfl)
      | (unfold handleAdminLogin; split <;> rfl)

/-- C1: from an unauthorized session, submitting a login string `raw` at
time `now` grants a `user` session with the marker `"user"` persisted exactly
when some stored `AccessCode` matches the uppercased input and has not yet
expired; for any other pair the state stays unauthorized and the error
`"Invalid or Expired Access Code"` is surfaced. -/
theorem handleUserLogin_iff (raw : String) (now : ℚ) (s : AppState)
    (h : s.authStatus = .unauthorized) :
    (((loginAttempt raw now s).authStatus = .user
        ∧ (loginAttempt raw now s).sessionMarker = some "user")
      ↔ ∃ c ∈ s.accessCodes, c.code = toUpper raw ∧ now < c.expiry)
    ∧ ((¬ ∃ c ∈ s.accessCodes, c.code = toUpper raw ∧ now < c.expiry) →
        (loginAttempt raw now s).authStatus = .unauthorized
        ∧ (loginAttempt raw now s).error = some "Invalid or Expired Access Code") := by
  rw [loginAttempt_eq]
  cases hf : s.accessCodes.find?
      (fun c => c.code == toUpper raw && decide (now < c.expiry)) with
  | some c =>
      have hex : ∃ c ∈ s.accessCodes, c.code = toUpper raw ∧ now < c.expiry :=
        (find?_isSome_iff (toUpper raw) now s.accessCodes).mp (by rw [hf]; rfl)
      exact ⟨iff_of_true ⟨rfl, rfl⟩ hex, fun hne => absurd hex hne⟩
  | none =>
      have hnex : ¬ ∃ c ∈ s.accessCodes, c.code = toUpper raw ∧ now < c.expiry := by
        intro hex
        have := (find?_isSome_iff (toUpper raw) now s.accessCodes).mpr hex
        rw [hf] at this
        simp at this
      refine ⟨iff_of_false ?_ hnex, fun _ => ⟨h, rfl⟩⟩
      rintro ⟨ha, -⟩
      have ha' : s.authStatus = .user := ha
      rw [h] at ha'
      exact AuthStatus.noConfusion ha'

/-- A state holding one access code `"ABC12345"` valid until instant 100. -/
def stC1 : AppState := { st0 with accessCodes := [⟨"ABC12345", 100, 1, 0⟩] }

/-- Witness for C1: the lowercase input "abc12345" at time 50 (before the
expiry 100) is uppercased, matches the stored code, and logs the user in. -/
theorem handleUserLogin_iff_witness :
    (loginAttempt "abc12345" 50 stC1).authStatus = .user :=
  (((handleUserLogin_iff "abc12345" 50 stC1 rfl).1).mpr
    ⟨⟨"ABC12345", 100, 1, 0⟩, by decide, by decide, by decide⟩).1

/-- C2: starting from an empty history with an image staged, after any
sequence of successful `runAnalysis` completions and `clearHistory` calls
the in-memory history is the 20-trim of the newest-first spine of the
surviving results — hence its length never exceeds 20 and it is ordered
newest-first; in particular a 21st consecutive successful analysis keeps the
20 newest results and drops the oldest one. -/
theorem history_invariant (cfg : Bool) (ops : List HistOp) (s : AppState)
    (himg : s.image ≠ none) (hh : s.history = []) :
    ((applyHistOps cfg ops s).history = (histSpine cfg ops).take 20
      ∧ (applyHistOps cfg ops s).history.length ≤ 20)
    ∧ ∀ (rs : List AnalysisResult), rs.length = 21 →
        (applyHistOps cfg (rs.map (fun r => HistOp.analyze r true)) s).history
          = (rs.drop 1).reverse := by
  have hmain := applyHistOps_history cfg ops s [] himg (by simpa using hh)
  refine ⟨⟨hmain, ?_⟩, ?_⟩
  · rw [hmain]
    exact List.length_take_le 20 _
  · intro rs hrs
    have h21 := applyHistOps_history cfg (rs.map (fun r => HistOp.analyze r true)) s []
      himg (by simpa using hh)
    rw [h21, List.foldl_map, foldl_specStep_analyze, List.append_nil,
      reverse_take_20 rs hrs]

/-- Witness for C2: two successful analyses then a clear followed by one more
analysis on a staged-image state give the singleton history of the last
result, of length at most 20. -/
theorem history_invariant_witness :
    (applyHistOps true
        [HistOp.analyze sampleResult true, HistOp.analyze sampleResult2 true,
         HistOp.clear true, HistOp.analyze sampleResult true]
        { st0 with image := some "img" }).history.length ≤ 20 :=
  ((history_invariant true
      [HistOp.analyze sampleResult true, HistOp.analyze sampleResult2 true,
       HistOp.clear true, HistOp.analyze sampleResult true]
      { st0 with image := some "img" } (by simp) rfl).1).2

/-- C3: in remote mode a failed persistence write makes `generateCode` and
`deleteCode` leave the access-code collection at its pre-operation value and
surface an error (persist-then-reflect), while `runAnalysis`, once the
external analysis has succeeded, prepends the result to the in-memory
history whether or not the remote history insert succeeds
(write-then-reflect). -/
theorem persistReflect_asymmetry (s : AppState) (code : String) (now days : ℚ)
    (v : String) (data : AnalysisResult) (k : Bool) (img : String) :
    ((generateCode true code now days false s).accessCodes = s.accessCodes
      ∧ (generateCode true code now days false s).error
          = some "Failed to save code to database.")
    ∧ ((deleteCode true v false s).accessCodes = s.accessCodes
      ∧ (deleteCode true v false s).error
          = some "Failed to delete code from database.")
    ∧ (s.image = some img →
        (runAnalysis true (Except.ok data) k s).history
          = (data :: s.history).take 20) := by
  refine ⟨⟨?_, ?_⟩, ⟨?_, ?_⟩, ?_⟩
  · simp [generateCode]
  · simp [generateCode]
  · simp [deleteCode]
  · simp [deleteCode]
  · intro himg
    simp [runAnalysis, himg]

/-- Witness for C3: with an image staged, a successful analysis whose remote
insert fails still lands in the in-memory history. -/
theorem persistReflect_asymmetry_witness :
    (runAnalysis true (Except.ok sampleResult) false
        { st0 with image := some "i" }).history = [sampleResult] := by
  rw [(persistReflect_asymmetry { st0 with image := some "i" }
        "C" 0 7 "V" sampleResult false "i").2.2 rfl]
  rfl

/-- C9: in local-fallback mode the startup bootstrap copies the stored
history array into memory without trimming, so a stored array longer than 20
leaves the in-memory history over the 20-entry cap — until the next
successful analysis re-establishes it. -/
theorem fetchData_local_untrimmed (s : AppState) (l : List AnalysisResult)
    (rc : List AccessCode) (rh : List AnalysisResult) (ce he : Bool)
    (hl : s.localHistory = some l) :
    (fetchData false rc rh ce he s).history = l
    ∧ (20 < l.length → 20 < (fetchData false rc rh ce he s).history.length)
    ∧ ∀ (d : AnalysisResult) (k : Bool) (img : String), s.image = some img →
        (runAnalysis false (Except.ok d) k (fetchData false rc rh ce he s)).history.length
          ≤ 20 := by
  have hh : (fetchData false rc rh ce he s).history = l := by
    simp only [fetchData, hl, Bool.false_eq_true, if_false]
    cases hc : s.localCodes <;> simp [hc]
  refine ⟨hh, ?_, ?_⟩
  · intro hlen
    rw [hh]
    exact hlen
  · intro d k img himg
    have himg' : (fetchData false rc rh ce he s).image = some img := by
      rw [fetchData_image]
      exact himg
    have : (runAnalysis false (Except.ok d) k (fetchData false rc rh ce he s)).history
        = ((d :: (fetchData false rc rh ce he s).history).take 20) := by
      simp [runAnalysis, himg']
    rw [this]
    exact List.length_take_le 20 _

/-- Witness for C9: a stored local history of 21 entries exceeds the cap in
memory right after bootstrap. -/
theorem fetchData_local_untrimmed_witness :
    20 < (fetchData false [] [] false false
        { st0 with localHistory := some (List.replicate 21 sampleResult) }).history.length :=
  (fetchData_local_untrimmed
      { st0 with localHistory := some (List.replicate 21 sampleResult) }
      (List.replicate 21 sampleResult) [] [] false false rfl).2.1
    (by simp)

end Claims

end VertexChart
